import Mathlib

/-!
# Verification of the OmniSharp request scheduling core (`src/omnisharp/requestQueue.ts`)

Shallow embedding of the request scheduling and queuing subsystem:

* `Request` — one unit of work (`command` plus an object identity `rid`;
  the `onSuccess`/`onError` callbacks are modelled as observable trace events,
  and the `startTime`/`endTime` instrumentation stamps are elided — the spec
  notes they are "not part of the caller contract").
* `RequestQueue` — one priority class: a FIFO `pending` list and a `waiting`
  map (a JavaScript `Map<number, Request>` modelled as an insertion-ordered
  association list with unique keys).
* `RequestQueueCollection` — the scheduler: the three queues, the
  `_isProcessing` reentrancy flag, and the event trace (the injected
  `EventObserver` sink is modelled as an append-only log in the state).

The injected transport binding `makeRequest` may mutate the whole scheduler
state (it can reenter via `enqueue`) and may throw; it is modelled as a
function `Request → RequestQueueCollection → BindResult` where `BindResult`
either yields a sequence id plus a successor state or records a propagating
exception together with the state at the throw point (JavaScript mutations
performed before a throw persist).
-/

namespace OmniSharp

/-- `Request` from `requestQueue.ts` (interface `Request`). `rid` stands for
the JavaScript object identity used by `Array.prototype.indexOf`; `command`
is the command name. Callbacks are modelled as trace events, and the
`startTime`/`endTime` instrumentation stamps are elided. -/
structure Request where
  rid : Nat
  command : String
deriving DecidableEq, Repr

/-- Observable events: the four `loggingEvents` the queues emit to the sink,
the invocation of a request's `onError` callback (`cancelRequest`), and the
transport binding's own observable effect of handing a request to the
external process under a sequence id (used by concrete bindings in
theorems). -/
inductive QueueEvent where
  | enqueueRequest (queueName command : String)
  | dequeueRequest (queueName command : String) (id : Nat)
  | processRequestStart (queueName : String)
  | processRequestComplete
  | requestOnError (r : Request) (message : String)
  | dispatched (r : Request) (id : Nat)
deriving DecidableEq, Repr

/-- `true` for the transport binding's dispatch marker events. -/
def QueueEvent.isDispatch : QueueEvent → Bool
  | .dispatched _ _ => true
  | _ => false

/-- A JavaScript `Map<number, Request>` as an insertion-ordered association
list. `Map.get`. -/
def mapGet (m : List (Nat × Request)) (id : Nat) : Option Request :=
  (m.find? (fun e => e.1 == id)).map (·.2)

/-- `Map.set`: replace in place when the key is present, append otherwise. -/
def mapSet (m : List (Nat × Request)) (id : Nat) (r : Request) :
    List (Nat × Request) :=
  if m.any (fun e => e.1 == id) then
    m.map (fun e => if e.1 == id then (id, r) else e)
  else
    m ++ [(id, r)]

/-- `Map.delete`. -/
def mapDelete (m : List (Nat × Request)) (id : Nat) : List (Nat × Request) :=
  m.filter (fun e => e.1 != id)

/-- One priority class (`class RequestQueue`): `_name`, `_maxSize`,
`_pending`, `_waiting`. -/
structure RequestQueue where
  name : String
  maxSize : Nat
  pending : List Request
  waiting : List (Nat × Request)
deriving DecidableEq, Repr

/-- Record update of the `pending` field (mutation of `this._pending`). -/
def RequestQueue.withPending (q : RequestQueue) (ps : List Request) : RequestQueue :=
  { q with pending := ps }

/-- Record update of the `waiting` field (mutation of `this._waiting`). -/
def RequestQueue.withWaiting (q : RequestQueue) (ws : List (Nat × Request)) : RequestQueue :=
  { q with waiting := ws }

/-- `RequestQueue.hasPending`: `this._pending.length > 0`. -/
def RequestQueue.hasPending (q : RequestQueue) : Bool :=
  q.pending.length > 0

/-- `RequestQueue.isFull`: `this._waiting.size >= this._maxSize`. -/
def RequestQueue.isFull (q : RequestQueue) : Bool :=
  q.maxSize ≤ q.waiting.length

/-- `RequestQueue.enqueue`: emit an `OmnisharpServerEnqueueRequest` event,
then push onto `_pending`. Returns the updated queue and the emitted
events. -/
def RequestQueue.enqueue (q : RequestQueue) (r : Request) :
    RequestQueue × List QueueEvent :=
  (q.withPending (q.pending ++ [r]),
   [QueueEvent.enqueueRequest q.name r.command])

/-- `RequestQueue.dequeue`: look up `id` in `_waiting`; when present, delete
it and emit an `OmnisharpServerDequeueRequest` event; return the request (or
nothing). -/
def RequestQueue.dequeue (q : RequestQueue) (id : Nat) :
    RequestQueue × List QueueEvent × Option Request :=
  match mapGet q.waiting id with
  | some r =>
      (q.withWaiting (mapDelete q.waiting id),
       [QueueEvent.dequeueRequest q.name r.command id], some r)
  | none => (q, [], none)

/-- `RequestQueue.cancelRequest`: when `request` occurs in `_pending`
(`indexOf` by identity), splice out the first occurrence and invoke
`onError` with `Pending request cancelled: <command>`; otherwise do nothing
(cancellation of an already-waiting request is a documented TODO in the
source). -/
def RequestQueue.cancelRequest (q : RequestQueue) (r : Request) :
    RequestQueue × List QueueEvent :=
  if r ∈ q.pending then
    (q.withPending (q.pending.erase r),
     [QueueEvent.requestOnError r ("Pending request cancelled: " ++ r.command)])
  else
    (q, [])

/-- Which of the scheduler's three queues a state component refers to. -/
inductive QueueId where
  | priority
  | normal
  | deferred
deriving DecidableEq, Repr

/-- `class RequestQueueCollection`: the `_isProcessing` reentrancy flag
(uninitialised in the source, hence falsy, modelled `false`), the three
queues, and the event log standing for the injected sink. -/
structure RequestQueueCollection where
  isProcessing : Bool
  priorityQueue : RequestQueue
  normalQueue : RequestQueue
  deferredQueue : RequestQueue
  trace : List QueueEvent
deriving DecidableEq, Repr

namespace RequestQueueCollection

/-- Read one of the three queues. -/
def getQ (s : RequestQueueCollection) : QueueId → RequestQueue
  | .priority => s.priorityQueue
  | .normal => s.normalQueue
  | .deferred => s.deferredQueue

/-- Replace one of the three queues. -/
def setQ (s : RequestQueueCollection) : QueueId → RequestQueue → RequestQueueCollection
  | .priority, qq => { s with priorityQueue := qq }
  | .normal, qq => { s with normalQueue := qq }
  | .deferred, qq => { s with deferredQueue := qq }

/-- Record update of the `_isProcessing` reentrancy flag. -/
def withFlag (s : RequestQueueCollection) (b : Bool) : RequestQueueCollection :=
  { s with isProcessing := b }

/-- Append one event to the log (`sink.onNext`). -/
def emit (s : RequestQueueCollection) (e : QueueEvent) : RequestQueueCollection :=
  { s with trace := s.trace ++ [e] }

/-- Append several events to the log. -/
def emitAll (s : RequestQueueCollection) (evs : List QueueEvent) : RequestQueueCollection :=
  { s with trace := s.trace ++ evs }

end RequestQueueCollection

/-- Result of invoking the transport binding: a sequence id plus the successor
scheduler state, or a propagating exception together with the state at the
throw point. -/
inductive BindResult where
  | ok (id : Nat) (s : RequestQueueCollection)
  | thrown (s : RequestQueueCollection)

/-- The scheduler state carried by a binding result. -/
def BindResult.state : BindResult → RequestQueueCollection
  | .ok _ s => s
  | .thrown s => s

/-- The injected transport binding `makeRequest`. It receives the whole
scheduler state because in the source it is a closure that can reenter the
scheduler (e.g. call `enqueue`) before returning the sequence id. -/
abbrev MakeRequest := Request → RequestQueueCollection → BindResult

/-- Result of a scheduler operation that can propagate a binding exception:
the successor state, normally or at the throw point. -/
inductive StepResult where
  | ok (s : RequestQueueCollection)
  | thrown (s : RequestQueueCollection)
deriving DecidableEq, Repr

/-- The scheduler state carried by a step result. -/
def StepResult.state : StepResult → RequestQueueCollection
  | .ok s => s
  | .thrown s => s

namespace RequestQueueCollection

/-- The `for (let i = 0; i < slots && this._pending.length > 0; i++)` loop of
`RequestQueue.processPending`, with the iteration bound `slots` as fuel.
Each iteration shifts the head of `_pending`, invokes the transport binding,
stores the request in `_waiting` under the returned id (`Map.set`), and
breaks as soon as the queue `isFull()`. The queue contents are re-read from
the threaded state each iteration, exactly as the JavaScript loop re-reads
the mutable `this._pending` / `this._waiting`. -/
def processLoop (mk : MakeRequest) (q : QueueId) :
    Nat → RequestQueueCollection → StepResult
  | 0, s => .ok s
  | fuel + 1, s =>
    match (s.getQ q).pending with
    | [] => .ok s
    | item :: rest =>
      match mk item (s.setQ q ((s.getQ q).withPending rest)) with
      | .thrown s2 => .thrown s2
      | .ok id s2 =>
        if ((s2.setQ q ((s2.getQ q).withWaiting (mapSet (s2.getQ q).waiting id item))).getQ q).isFull then
          .ok (s2.setQ q ((s2.getQ q).withWaiting (mapSet (s2.getQ q).waiting id item)))
        else
          processLoop mk q fuel (s2.setQ q ((s2.getQ q).withWaiting (mapSet (s2.getQ q).waiting id item)))

/-- `RequestQueue.processPending`: return at once when `_pending` is empty;
otherwise emit `OmnisharpServerProcessRequestStart`, compute
`slots = _maxSize - _waiting.size` once (natural subtraction matches the
JavaScript loop, which runs zero iterations when the difference is not
positive), run the dispatch loop, and emit
`OmnisharpServerProcessRequestComplete` — unless the binding threw, in which
case the exception propagates before the completion event. -/
def processPending (mk : MakeRequest) (q : QueueId) (s : RequestQueueCollection) :
    StepResult :=
  if (s.getQ q).pending.length = 0 then .ok s
  else
    match processLoop mk q ((s.getQ q).maxSize - (s.getQ q).waiting.length)
        (s.emit (.processRequestStart (s.getQ q).name)) with
    | .thrown s2 => .thrown s2
    | .ok s2 => .ok (s2.emit .processRequestComplete)

/-- `RequestQueueCollection.drain`. Guard order as in the source: the
`_isProcessing` reentrancy flag, then `priorityQueue.isFull()`, then
`normalQueue.isFull() && deferredQueue.isFull()`; each guard returns with the
state untouched. Otherwise set the flag, drain only Priority when it has
pending work, else drain Normal then Deferred (re-checking
`deferredQueue.hasPending()` after Normal's pass, as the source does), and
clear the flag — the clearing assignments are skipped when the binding's
exception propagates. -/
def drain (mk : MakeRequest) (s : RequestQueueCollection) : StepResult :=
  if s.isProcessing then .ok s
  else if s.priorityQueue.isFull then .ok s
  else if s.normalQueue.isFull && s.deferredQueue.isFull then .ok s
  else
    if (s.withFlag true).priorityQueue.hasPending then
      match (s.withFlag true).processPending mk .priority with
      | .thrown s2 => .thrown s2
      | .ok s2 => .ok (s2.withFlag false)
    else
      match (if (s.withFlag true).normalQueue.hasPending then
          (s.withFlag true).processPending mk .normal else .ok (s.withFlag true)) with
      | .thrown s2 => .thrown s2
      | .ok s2 =>
        match (if s2.deferredQueue.hasPending then s2.processPending mk .deferred else .ok s2) with
        | .thrown s3 => .thrown s3
        | .ok s3 => .ok (s3.withFlag false)

end RequestQueueCollection

/-- Modelled from the spec: `prioritization.ts` is imported by
`requestQueue.ts` but is not among the provided sources. Spec §4.1 says the
classifier is a pure, total, deterministic function over a static allow-list
per class, with any command in neither the Priority nor the Normal allow-list
defaulting to Deferred; the allow-lists themselves are not given, so
`isPriorityCommand` / `isNormalCommand` are abstract parameters. -/
structure Prioritization where
  isPriorityCommand : String → Bool
  isNormalCommand : String → Bool

namespace RequestQueueCollection

/-- `RequestQueueCollection.getQueue`: the if/else-if/else chain over
`prioritization.isPriorityCommand` / `isNormalCommand`. -/
def getQueue (p : Prioritization) (command : String) : QueueId :=
  if p.isPriorityCommand command then .priority
  else if p.isNormalCommand command then .normal
  else .deferred

/-- `RequestQueueCollection.isEmpty`. -/
def isEmpty (s : RequestQueueCollection) : Bool :=
  !s.deferredQueue.hasPending && !s.normalQueue.hasPending && !s.priorityQueue.hasPending

/-- `RequestQueueCollection.enqueue`: route to the classified queue, enqueue,
then `drain()`. -/
def enqueueOp (p : Prioritization) (mk : MakeRequest) (r : Request)
    (s : RequestQueueCollection) : StepResult :=
  ((s.emitAll ((s.getQ (getQueue p r.command)).enqueue r).2).setQ
      (getQueue p r.command) ((s.getQ (getQueue p r.command)).enqueue r).1).drain mk

/-- `RequestQueueCollection.dequeue`: route by `command`, forward to that
queue's `dequeue`. No drain and no transport-binding parameter: dequeue never
dispatches. -/
def dequeueOp (p : Prioritization) (command : String) (seq : Nat)
    (s : RequestQueueCollection) : RequestQueueCollection × Option Request :=
  ((s.setQ (getQueue p command) ((s.getQ (getQueue p command)).dequeue seq).1).emitAll
      ((s.getQ (getQueue p command)).dequeue seq).2.1,
   ((s.getQ (getQueue p command)).dequeue seq).2.2)

/-- `RequestQueueCollection.cancelRequest`: route by the request's own
command, forward to that queue's `cancelRequest`. -/
def cancelOp (p : Prioritization) (r : Request) (s : RequestQueueCollection) :
    RequestQueueCollection :=
  (s.setQ (getQueue p r.command) ((s.getQ (getQueue p r.command)).cancelRequest r).1).emitAll
    ((s.getQ (getQueue p r.command)).cancelRequest r).2

end RequestQueueCollection

/-- Construct one empty queue (`RequestQueue` constructor). -/
def mkQueue (name : String) (maxSize : Nat) : RequestQueue :=
  { name := name, maxSize := maxSize, pending := [], waiting := [] }

/-- The `RequestQueueCollection` constructor: Priority capped at 1, Normal at
the configured concurrency, Deferred at `Math.max(Math.floor(concurrency / 4), 2)`. -/
def initCollection (concurrency : Nat) : RequestQueueCollection :=
  { isProcessing := false
    priorityQueue := mkQueue "Priority" 1
    normalQueue := mkQueue "Normal" concurrency
    deferredQueue := mkQueue "Deferred" (max (concurrency / 4) 2)
    trace := [] }

/-- The scheduler's externally triggered operations. -/
inductive SchedOp where
  | enqueue (r : Request)
  | dequeue (command : String) (seq : Nat)
  | cancel (r : Request)
  | drain
deriving DecidableEq, Repr

/-- Apply one external operation; after a binding exception the caller keeps
the scheduler object, so the run continues from the state at the throw
point. -/
def applyOp (p : Prioritization) (mk : MakeRequest) (s : RequestQueueCollection) :
    SchedOp → RequestQueueCollection
  | .enqueue r => (s.enqueueOp p mk r).state
  | .dequeue c n => (s.dequeueOp p c n).1
  | .cancel r => s.cancelOp p r
  | .drain => (s.drain mk).state

/-- Run a sequence of external operations. -/
def runOps (p : Prioritization) (mk : MakeRequest) (s : RequestQueueCollection)
    (ops : List SchedOp) : RequestQueueCollection :=
  ops.foldl (applyOp p mk) s

/-- A transport binding that does not touch the scheduler's queues or
reentrancy flag (the ordinary, non-reentrant binding: it only hands the
payload to the external process and returns a sequence id). -/
def QueuePreserving (mk : MakeRequest) : Prop :=
  ∀ r s, (∀ q, (mk r s).state.getQ q = s.getQ q) ∧
    (mk r s).state.isProcessing = s.isProcessing

/-- Every queue respects its concurrency bound: `|waiting| ≤ maxConcurrency`. -/
def QueuesBounded (s : RequestQueueCollection) : Prop :=
  ∀ q, ((s.getQ q).waiting).length ≤ (s.getQ q).maxSize

/-- Number of transport dispatches recorded in a trace. -/
def dispatchCount (tr : List QueueEvent) : Nat :=
  (tr.filter QueueEvent.isDispatch).length

/-- The canonical fresh-id, non-reentrant binding: the `n`-th dispatch overall
returns sequence id `ids n`, records the dispatch in the trace, and touches
nothing else. -/
def mkFresh (ids : Nat → Nat) : MakeRequest :=
  fun r s => .ok (ids (dispatchCount s.trace))
    (s.emit (.dispatched r (ids (dispatchCount s.trace))))

/-- Pair each request of a batch with its sequence id, the `n`-th request of
the batch receiving `ids (n0 + n)`: the expected contents appended to
`waiting` by one `processPending` pass under `mkFresh ids`. -/
def assignIds (ids : Nat → Nat) (n0 : Nat) : List Request → List (Nat × Request)
  | [] => []
  | r :: rs => (ids n0, r) :: assignIds ids (n0 + 1) rs

/-! ## Concrete instances used by witnesses and counterexamples -/

/-- A concrete classifier instance (the allow-lists are abstract parameters;
this instance marks `pcmd` as the Priority allow-list and `ncmd` as the
Normal allow-list). -/
def pEx : Prioritization :=
  { isPriorityCommand := fun c => c = "pcmd", isNormalCommand := fun c => c = "ncmd" }

/-- The canonical fresh-id binding with the identity id supply. -/
def mkEx : MakeRequest := mkFresh (fun n => n)

/-- Requests used by the C6 reentrancy counterexample. -/
def reqA : Request := ⟨1, "ncmd"⟩

/-- Second request of the C6 counterexample, enqueued by the binding itself. -/
def reqB : Request := ⟨2, "ncmd"⟩

/-- Plain fresh-id binding used inside the reentrant binding. -/
def mkInner : MakeRequest := mkFresh (fun n => 100 + n)

/-- A reentrant transport binding: while dispatching `reqA` it synchronously
calls the scheduler's `enqueue` with `reqB` (whose nested `drain` is a guard
no-op), then returns sequence id 7; any other request just gets id 8. -/
def mkReenter : MakeRequest := fun r s =>
  if r.rid = 1 then
    match s.enqueueOp pEx mkInner reqB with
    | .ok t => .ok 7 (t.emit (.dispatched r 7))
    | .thrown t => .thrown t
  else .ok 8 (s.emit (.dispatched r 8))

/-- The throwing binding of the C10 witness: it throws exactly on request
`⟨7, "ncmd"⟩` and otherwise dispatches fresh ids. -/
def mkThrow7 : MakeRequest := fun r s =>
  if r.rid = 7 then .thrown s else mkEx r s

/-- Witness state for C2: priority pending work, empty waiting maps. -/
def sC2 : RequestQueueCollection :=
  { isProcessing := false
    priorityQueue := { name := "Priority", maxSize := 1, pending := [⟨1, "pcmd"⟩], waiting := [] }
    normalQueue := { name := "Normal", maxSize := 4, pending := [⟨2, "ncmd"⟩], waiting := [] }
    deferredQueue := { name := "Deferred", maxSize := 2, pending := [], waiting := [] }
    trace := [] }

/-- Witness state for C3: two pending normal requests, plenty of slack. -/
def sC3 : RequestQueueCollection :=
  { isProcessing := true
    priorityQueue := { name := "Priority", maxSize := 1, pending := [], waiting := [] }
    normalQueue := { name := "Normal", maxSize := 4, pending := [⟨1, "ncmd"⟩, ⟨2, "ncmd"⟩], waiting := [] }
    deferredQueue := { name := "Deferred", maxSize := 2, pending := [], waiting := [] }
    trace := [] }

/-- Witness state for C4: one outstanding priority request. -/
def sC4 : RequestQueueCollection :=
  { isProcessing := false
    priorityQueue := { name := "Priority", maxSize := 1, pending := [], waiting := [(5, ⟨1, "pcmd"⟩)] }
    normalQueue := { name := "Normal", maxSize := 4, pending := [⟨2, "ncmd"⟩], waiting := [] }
    deferredQueue := { name := "Deferred", maxSize := 2, pending := [], waiting := [] }
    trace := [] }

/-- Witness state for C5: Normal and Deferred full, Priority with pending
work and slack. -/
def sC5 : RequestQueueCollection :=
  { isProcessing := false
    priorityQueue := { name := "Priority", maxSize := 1, pending := [⟨1, "pcmd"⟩], waiting := [] }
    normalQueue := { name := "Normal", maxSize := 1, pending := [⟨2, "ncmd"⟩], waiting := [(3, ⟨4, "ncmd"⟩)] }
    deferredQueue := { name := "Deferred", maxSize := 2, pending := [], waiting := [(1, ⟨5, "x"⟩), (2, ⟨6, "y"⟩)] }
    trace := [] }

/-- Witness state for the amended C6: a scheduler mid-pass (guard set). -/
def sC6 : RequestQueueCollection :=
  { isProcessing := true
    priorityQueue := { name := "Priority", maxSize := 1, pending := [], waiting := [] }
    normalQueue := { name := "Normal", maxSize := 4, pending := [], waiting := [] }
    deferredQueue := { name := "Deferred", maxSize := 2, pending := [], waiting := [] }
    trace := [] }

/-- Witness state for C7: one pending normal request, one waiting request. -/
def sC7 : RequestQueueCollection :=
  { isProcessing := false
    priorityQueue := { name := "Priority", maxSize := 1, pending := [], waiting := [] }
    normalQueue := { name := "Normal", maxSize := 4, pending := [⟨2, "ncmd"⟩], waiting := [(1, ⟨9, "ncmd"⟩)] }
    deferredQueue := { name := "Deferred", maxSize := 2, pending := [], waiting := [] }
    trace := [] }

/-- Witness state for C8: one waiting normal request under id 5. -/
def sC8 : RequestQueueCollection :=
  { isProcessing := false
    priorityQueue := { name := "Priority", maxSize := 1, pending := [], waiting := [] }
    normalQueue := { name := "Normal", maxSize := 4, pending := [], waiting := [(5, ⟨9, "ncmd"⟩)] }
    deferredQueue := { name := "Deferred", maxSize := 2, pending := [], waiting := [] }
    trace := [] }

/-- Witness state for C9: a scheduler whose flag is stuck (as after a
binding exception), with pending work in every class. -/
def sC9 : RequestQueueCollection :=
  { isProcessing := true
    priorityQueue := { name := "Priority", maxSize := 1, pending := [⟨1, "pcmd"⟩], waiting := [] }
    normalQueue := { name := "Normal", maxSize := 4, pending := [⟨2, "ncmd"⟩], waiting := [] }
    deferredQueue := { name := "Deferred", maxSize := 2, pending := [⟨3, "x"⟩], waiting := [] }
    trace := [] }

/-- Witness state for C10: request `⟨7, "ncmd"⟩` at the head of the Normal
pending list with one request queued behind it. -/
def sC10 : RequestQueueCollection :=
  { isProcessing := true
    priorityQueue := { name := "Priority", maxSize := 1, pending := [], waiting := [] }
    normalQueue := { name := "Normal", maxSize := 4, pending := [⟨7, "ncmd"⟩, ⟨8, "ncmd"⟩], waiting := [] }
    deferredQueue := { name := "Deferred", maxSize := 2, pending := [], waiting := [] }
    trace := [] }

/-! ## Field lemmas for the record-update helpers -/

@[simp]
theorem RequestQueue.pending_withPending (q : RequestQueue) (ps : List Request) :
    (q.withPending ps).pending = ps := rfl

@[simp]
theorem RequestQueue.waiting_withPending (q : RequestQueue) (ps : List Request) :
    (q.withPending ps).waiting = q.waiting := rfl

@[simp]
theorem RequestQueue.name_withPending (q : RequestQueue) (ps : List Request) :
    (q.withPending ps).name = q.name := rfl

@[simp]
theorem RequestQueue.maxSize_withPending (q : RequestQueue) (ps : List Request) :
    (q.withPending ps).maxSize = q.maxSize := rfl

@[simp]
theorem RequestQueue.pending_withWaiting (q : RequestQueue) (ws : List (Nat × Request)) :
    (q.withWaiting ws).pending = q.pending := rfl

@[simp]
theorem RequestQueue.waiting_withWaiting (q : RequestQueue) (ws : List (Nat × Request)) :
    (q.withWaiting ws).waiting = ws := rfl

@[simp]
theorem RequestQueue.name_withWaiting (q : RequestQueue) (ws : List (Nat × Request)) :
    (q.withWaiting ws).name = q.name := rfl

@[simp]
theorem RequestQueue.maxSize_withWaiting (q : RequestQueue) (ws : List (Nat × Request)) :
    (q.withWaiting ws).maxSize = q.maxSize := rfl

/-! ## Basic lemmas about the state accessors -/

namespace RequestQueueCollection

@[simp]
theorem getQ_setQ_same (s : RequestQueueCollection) (q : QueueId) (qq : RequestQueue) :
    (s.setQ q qq).getQ q = qq := by
  cases q <;> rfl

theorem getQ_setQ_ne {s : RequestQueueCollection} {q q' : QueueId} {qq : RequestQueue}
    (h : q' ≠ q) : (s.setQ q qq).getQ q' = s.getQ q' := by
  cases q <;> cases q' <;> first | rfl | exact absurd rfl h

@[simp]
theorem setQ_setQ (s : RequestQueueCollection) (q : QueueId) (a b : RequestQueue) :
    (s.setQ q a).setQ q b = s.setQ q b := by
  cases q <;> rfl

@[simp]
theorem setQ_isProcessing (s : RequestQueueCollection) (q : QueueId) (qq : RequestQueue) :
    (s.setQ q qq).isProcessing = s.isProcessing := by
  cases q <;> rfl

@[simp]
theorem setQ_trace (s : RequestQueueCollection) (q : QueueId) (qq : RequestQueue) :
    (s.setQ q qq).trace = s.trace := by
  cases q <;> rfl

@[simp]
theorem getQ_emit (s : RequestQueueCollection) (e : QueueEvent) (q : QueueId) :
    (s.emit e).getQ q = s.getQ q := by
  cases q <;> rfl

@[simp]
theorem emit_isProcessing (s : RequestQueueCollection) (e : QueueEvent) :
    (s.emit e).isProcessing = s.isProcessing := rfl

@[simp]
theorem emit_trace (s : RequestQueueCollection) (e : QueueEvent) :
    (s.emit e).trace = s.trace ++ [e] := rfl

@[simp]
theorem getQ_emitAll (s : RequestQueueCollection) (evs : List QueueEvent) (q : QueueId) :
    (s.emitAll evs).getQ q = s.getQ q := by
  cases q <;> rfl

@[simp]
theorem emitAll_isProcessing (s : RequestQueueCollection) (evs : List QueueEvent) :
    (s.emitAll evs).isProcessing = s.isProcessing := rfl

@[simp]
theorem emitAll_trace (s : RequestQueueCollection) (evs : List QueueEvent) :
    (s.emitAll evs).trace = s.trace ++ evs := rfl

@[simp]
theorem getQ_withFlag (s : RequestQueueCollection) (b : Bool) (q : QueueId) :
    (s.withFlag b).getQ q = s.getQ q := by
  cases q <;> rfl

@[simp]
theorem trace_withFlag (s : RequestQueueCollection) (b : Bool) :
    (s.withFlag b).trace = s.trace := rfl

@[simp]
theorem isProcessing_withFlag (s : RequestQueueCollection) (b : Bool) :
    (s.withFlag b).isProcessing = b := rfl

end RequestQueueCollection

/-! ## Basic lemmas about the waiting-map model -/

theorem mapSet_of_not_mem {m : List (Nat × Request)} {id : Nat} (r : Request)
    (h : id ∉ m.map Prod.fst) : mapSet m id r = m ++ [(id, r)] := by
  unfold mapSet
  rw [if_neg]
  intro hc
  rw [List.any_eq_true] at hc
  obtain ⟨e, he, hbe⟩ := hc
  exact h (List.mem_map.mpr ⟨e, he, by simpa using hbe⟩)

theorem mapSet_length_le (m : List (Nat × Request)) (id : Nat) (r : Request) :
    (mapSet m id r).length ≤ m.length + 1 := by
  unfold mapSet
  split
  · simp
  · simp

theorem mapDelete_sublist (m : List (Nat × Request)) (id : Nat) :
    (mapDelete m id).Sublist m :=
  List.filter_sublist m

theorem mapDelete_length_le (m : List (Nat × Request)) (id : Nat) :
    (mapDelete m id).length ≤ m.length :=
  (mapDelete_sublist m id).length_le

@[simp]
theorem dispatchCount_append (tr tr' : List QueueEvent) :
    dispatchCount (tr ++ tr') = dispatchCount tr + dispatchCount tr' := by
  simp [dispatchCount]

@[simp]
theorem dispatchCount_dispatched (r : Request) (id : Nat) :
    dispatchCount [QueueEvent.dispatched r id] = 1 := rfl

@[simp]
theorem dispatchCount_processStart (n : String) :
    dispatchCount [QueueEvent.processRequestStart n] = 0 := rfl

theorem assignIds_append_entry (ids : Nat → Nat) (n0 : Nat) (r : Request)
    (rs : List Request) :
    assignIds ids n0 (r :: rs) = (ids n0, r) :: assignIds ids (n0 + 1) rs := rfl

/-! ## The dispatch loop under a queue-preserving transport binding -/

theorem QueuePreserving.getQ {mk : MakeRequest} (hmk : QueuePreserving mk)
    (r : Request) (s : RequestQueueCollection) (q : QueueId) :
    (mk r s).state.getQ q = s.getQ q :=
  (hmk r s).1 q

theorem QueuePreserving.flag {mk : MakeRequest} (hmk : QueuePreserving mk)
    (r : Request) (s : RequestQueueCollection) :
    (mk r s).state.isProcessing = s.isProcessing :=
  (hmk r s).2

theorem processLoop_frame {mk : MakeRequest} (hmk : QueuePreserving mk) (q : QueueId) :
    ∀ (fuel : Nat) (s : RequestQueueCollection) (q' : QueueId), q' ≠ q →
      ((RequestQueueCollection.processLoop mk q fuel s).state.getQ q') = s.getQ q' := by
  intro fuel
  induction fuel with
  | zero => intro s q' _; rfl
  | succ n ih =>
    intro s q' h
    unfold RequestQueueCollection.processLoop
    split
    · rfl
    · next item rest hp =>
      split
      · next s2 heq =>
        have h2 := hmk.getQ item (s.setQ q ((s.getQ q).withPending rest)) q'
        rw [heq] at h2
        simpa [StepResult.state, BindResult.state, RequestQueueCollection.getQ_setQ_ne h] using h2
      · next id s2 heq =>
        have h2 := hmk.getQ item (s.setQ q ((s.getQ q).withPending rest)) q'
        rw [heq] at h2
        simp only [BindResult.state] at h2
        rw [RequestQueueCollection.getQ_setQ_ne h] at h2
        split
        · simpa [StepResult.state, RequestQueueCollection.getQ_setQ_ne h] using h2
        · rw [ih _ q' h, RequestQueueCollection.getQ_setQ_ne h, h2]

theorem processLoop_flag {mk : MakeRequest} (hmk : QueuePreserving mk) (q : QueueId) :
    ∀ (fuel : Nat) (s : RequestQueueCollection),
      (RequestQueueCollection.processLoop mk q fuel s).state.isProcessing = s.isProcessing := by
  intro fuel
  induction fuel with
  | zero => intro s; rfl
  | succ n ih =>
    intro s
    unfold RequestQueueCollection.processLoop
    split
    · rfl
    · next item rest hp =>
      split
      · next s2 heq =>
        have h2 := hmk.flag item (s.setQ q ((s.getQ q).withPending rest))
        rw [heq] at h2
        simpa [StepResult.state, BindResult.state] using h2
      · next id s2 heq =>
        have h2 := hmk.flag item (s.setQ q ((s.getQ q).withPending rest))
        rw [heq] at h2
        simp only [BindResult.state, RequestQueueCollection.setQ_isProcessing] at h2
        split
        · simpa [StepResult.state] using h2
        · rw [ih, RequestQueueCollection.setQ_isProcessing, h2]

theorem processLoop_bound {mk : MakeRequest} (hmk : QueuePreserving mk) (q : QueueId) :
    ∀ (fuel : Nat) (s : RequestQueueCollection),
      ∃ j, j ≤ fuel ∧
        (((RequestQueueCollection.processLoop mk q fuel s).state.getQ q).pending
            = ((s.getQ q).pending).drop j) ∧
        (((RequestQueueCollection.processLoop mk q fuel s).state.getQ q).waiting.length
            ≤ (s.getQ q).waiting.length + j) ∧
        (((RequestQueueCollection.processLoop mk q fuel s).state.getQ q).name
            = (s.getQ q).name) ∧
        (((RequestQueueCollection.processLoop mk q fuel s).state.getQ q).maxSize
            = (s.getQ q).maxSize) := by
  intro fuel
  induction fuel with
  | zero =>
    intro s
    exact ⟨0, Nat.le_refl 0, by simp [RequestQueueCollection.processLoop, StepResult.state]⟩
  | succ n ih =>
    intro s
    unfold RequestQueueCollection.processLoop
    split
    · exact ⟨0, by omega, by simp [StepResult.state]⟩
    · next item rest hp =>
      split
      · next s2 heq =>
        refine ⟨1, by omega, ?_⟩
        have h2 := hmk.getQ item (s.setQ q ((s.getQ q).withPending rest)) q
        rw [heq] at h2
        simp only [BindResult.state, RequestQueueCollection.getQ_setQ_same] at h2
        simp [StepResult.state, h2, hp]
      · next id s2 heq =>
        have h2 := hmk.getQ item (s.setQ q ((s.getQ q).withPending rest)) q
        rw [heq] at h2
        simp only [BindResult.state, RequestQueueCollection.getQ_setQ_same] at h2
        split
        · refine ⟨1, by omega, ?_, ?_, ?_, ?_⟩
          · simp [StepResult.state, h2, hp]
          · simp only [StepResult.state, RequestQueueCollection.getQ_setQ_same,
              RequestQueue.waiting_withWaiting, h2, RequestQueue.waiting_withPending]
            have := mapSet_length_le ((s.getQ q).waiting) id item
            omega
          · simp [StepResult.state, h2]
          · simp [StepResult.state, h2]
        · obtain ⟨j, hj, hpend, hwait, hname, hmax⟩ :=
            ih (s2.setQ q ((s2.getQ q).withWaiting (mapSet ((s2.getQ q).waiting) id item)))
          refine ⟨j + 1, by omega, ?_, ?_, ?_, ?_⟩
          · rw [hpend]; simp [h2, hp]
          · refine le_trans hwait ?_
            simp only [RequestQueueCollection.getQ_setQ_same,
              RequestQueue.waiting_withWaiting, h2, RequestQueue.waiting_withPending]
            have := mapSet_length_le ((s.getQ q).waiting) id item
            omega
          · rw [hname]; simp [h2]
          · rw [hmax]; simp [h2]

/-! ## `processPending` under a queue-preserving transport binding -/

theorem processPending_frame {mk : MakeRequest} (hmk : QueuePreserving mk) (q : QueueId)
    (s : RequestQueueCollection) (q' : QueueId) (h : q' ≠ q) :
    ((s.processPending mk q).state.getQ q') = s.getQ q' := by
  unfold RequestQueueCollection.processPending
  split
  · rfl
  · split
    · next s2 heq =>
      have h2 := processLoop_frame hmk q ((s.getQ q).maxSize - (s.getQ q).waiting.length)
        (s.emit (.processRequestStart (s.getQ q).name)) q' h
      rw [heq] at h2
      simpa [StepResult.state] using h2
    · next s2 heq =>
      have h2 := processLoop_frame hmk q ((s.getQ q).maxSize - (s.getQ q).waiting.length)
        (s.emit (.processRequestStart (s.getQ q).name)) q' h
      rw [heq] at h2
      simpa [StepResult.state] using h2

theorem processPending_flag {mk : MakeRequest} (hmk : QueuePreserving mk) (q : QueueId)
    (s : RequestQueueCollection) :
    (s.processPending mk q).state.isProcessing = s.isProcessing := by
  unfold RequestQueueCollection.processPending
  split
  · rfl
  · split
    · next s2 heq =>
      have h2 := processLoop_flag hmk q ((s.getQ q).maxSize - (s.getQ q).waiting.length)
        (s.emit (.processRequestStart (s.getQ q).name))
      rw [heq] at h2
      simpa [StepResult.state] using h2
    · next s2 heq =>
      have h2 := processLoop_flag hmk q ((s.getQ q).maxSize - (s.getQ q).waiting.length)
        (s.emit (.processRequestStart (s.getQ q).name))
      rw [heq] at h2
      simpa [StepResult.state] using h2

theorem processPending_bound {mk : MakeRequest} (hmk : QueuePreserving mk) (q : QueueId)
    (s : RequestQueueCollection) :
    ∃ j, j ≤ (s.getQ q).maxSize - (s.getQ q).waiting.length ∧
      (((s.processPending mk q).state.getQ q).pending = ((s.getQ q).pending).drop j) ∧
      (((s.processPending mk q).state.getQ q).waiting.length
          ≤ (s.getQ q).waiting.length + j) ∧
      (((s.processPending mk q).state.getQ q).name = (s.getQ q).name) ∧
      (((s.processPending mk q).state.getQ q).maxSize = (s.getQ q).maxSize) := by
  unfold RequestQueueCollection.processPending
  split
  · exact ⟨0, Nat.zero_le _, by simp [StepResult.state]⟩
  · obtain ⟨j, hj, hpend, hwait, hname, hmax⟩ :=
      processLoop_bound hmk q ((s.getQ q).maxSize - (s.getQ q).waiting.length)
        (s.emit (.processRequestStart (s.getQ q).name))
    split
    · next s2 heq =>
      rw [heq] at hpend hwait hname hmax
      simp only [StepResult.state, RequestQueueCollection.getQ_emit] at hpend hwait hname hmax
      exact ⟨j, hj, by simpa [StepResult.state] using hpend,
        by simpa [StepResult.state] using hwait,
        by simpa [StepResult.state] using hname,
        by simpa [StepResult.state] using hmax⟩
    · next s2 heq =>
      rw [heq] at hpend hwait hname hmax
      simp only [StepResult.state, RequestQueueCollection.getQ_emit] at hpend hwait hname hmax
      exact ⟨j, hj, by simpa [StepResult.state] using hpend,
        by simpa [StepResult.state] using hwait,
        by simpa [StepResult.state] using hname,
        by simpa [StepResult.state] using hmax⟩

theorem processPending_bounded {mk : MakeRequest} (hmk : QueuePreserving mk) (q : QueueId)
    (s : RequestQueueCollection) (hs : QueuesBounded s) :
    QueuesBounded (s.processPending mk q).state := by
  intro q'
  by_cases hq : q' = q
  · subst hq
    obtain ⟨j, hj, _, hwait, _, hmax⟩ := processPending_bound hmk q' s
    rw [hmax]
    have := hs q'
    omega
  · rw [processPending_frame hmk q s q' hq]
    exact hs q'

/-! ## `drain` preserves the concurrency bounds -/

theorem queuesBounded_withFlag (s : RequestQueueCollection) (b : Bool) :
    QueuesBounded (s.withFlag b) ↔ QueuesBounded s := by
  unfold QueuesBounded
  simp

theorem drain_bounded {mk : MakeRequest} (hmk : QueuePreserving mk)
    (s : RequestQueueCollection) (hs : QueuesBounded s) :
    QueuesBounded (s.drain mk).state := by
  unfold RequestQueueCollection.drain
  split
  · exact hs
  · split
    · exact hs
    · split
      · exact hs
      · have hs1 : QueuesBounded (s.withFlag true) := (queuesBounded_withFlag s true).mpr hs
        split
        · split
          · next s2 heq =>
            have h2 := processPending_bounded hmk .priority (s.withFlag true) hs1
            rw [heq] at h2
            simpa [StepResult.state] using h2
          · next s2 heq =>
            have h2 := processPending_bounded hmk .priority (s.withFlag true) hs1
            rw [heq] at h2
            simp only [StepResult.state] at h2
            simpa [StepResult.state, queuesBounded_withFlag] using h2
        · have hb2 : QueuesBounded (if (s.withFlag true).normalQueue.hasPending then
              (s.withFlag true).processPending mk .normal else .ok (s.withFlag true)).state := by
            split
            · exact processPending_bounded hmk .normal (s.withFlag true) hs1
            · simpa [StepResult.state] using hs1
          split
          · next s2 heq =>
            rw [heq] at hb2
            simpa [StepResult.state] using hb2
          · next s2 heq =>
            rw [heq] at hb2
            simp only [StepResult.state] at hb2
            have hb3 : QueuesBounded (if s2.deferredQueue.hasPending then
                s2.processPending mk .deferred else .ok s2).state := by
              split
              · exact processPending_bounded hmk .deferred s2 hb2
              · simpa [StepResult.state] using hb2
            split
            · next s3 heq3 =>
              rw [heq3] at hb3
              simpa [StepResult.state] using hb3
            · next s3 heq3 =>
              rw [heq3] at hb3
              simp only [StepResult.state] at hb3
              simpa [StepResult.state, queuesBounded_withFlag] using hb3

/-! ## Guard no-op lemmas for `drain` -/

theorem drain_of_isProcessing (mk : MakeRequest) (s : RequestQueueCollection)
    (h : s.isProcessing = true) : s.drain mk = .ok s := by
  unfold RequestQueueCollection.drain
  simp [h]

theorem drain_of_priorityFull (mk : MakeRequest) (s : RequestQueueCollection)
    (h : s.priorityQueue.isFull = true) : s.drain mk = .ok s := by
  unfold RequestQueueCollection.drain
  by_cases h1 : s.isProcessing
  · simp [h1]
  · simp [h1, h]

theorem drain_of_bothFull (mk : MakeRequest) (s : RequestQueueCollection)
    (hn : s.normalQueue.isFull = true) (hd : s.deferredQueue.isFull = true) :
    s.drain mk = .ok s := by
  unfold RequestQueueCollection.drain
  by_cases h1 : s.isProcessing
  · simp [h1]
  · by_cases h2 : s.priorityQueue.isFull
    · simp [h1, h2]
    · simp [h1, h2, hn, hd]

/-! ## The concurrency bound is preserved by every external operation -/

theorem enqueueOp_bounded (p : Prioritization) {mk : MakeRequest} (hmk : QueuePreserving mk)
    (r : Request) (s : RequestQueueCollection) (hs : QueuesBounded s) :
    QueuesBounded (s.enqueueOp p mk r).state := by
  unfold RequestQueueCollection.enqueueOp RequestQueue.enqueue
  apply drain_bounded hmk
  intro q'
  by_cases h : q' = RequestQueueCollection.getQueue p r.command
  · subst h
    simpa using hs _
  · rw [RequestQueueCollection.getQ_setQ_ne h]
    simpa using hs q'

theorem dequeueOp_bounded (p : Prioritization) (c : String) (n : Nat)
    (s : RequestQueueCollection) (hs : QueuesBounded s) :
    QueuesBounded (s.dequeueOp p c n).1 := by
  unfold RequestQueueCollection.dequeueOp RequestQueue.dequeue
  intro q'
  by_cases h : q' = RequestQueueCollection.getQueue p c
  · subst h
    split
    · simp only [RequestQueueCollection.getQ_emitAll, RequestQueueCollection.getQ_setQ_same,
        RequestQueue.waiting_withWaiting, RequestQueue.maxSize_withWaiting]
      exact le_trans (mapDelete_length_le _ _) (hs _)
    · simpa using hs _
  · split
    · simp only [RequestQueueCollection.getQ_emitAll]
      rw [RequestQueueCollection.getQ_setQ_ne h]
      exact hs q'
    · simp only [RequestQueueCollection.getQ_emitAll]
      rw [RequestQueueCollection.getQ_setQ_ne h]
      exact hs q'

theorem cancelOp_bounded (p : Prioritization) (r : Request)
    (s : RequestQueueCollection) (hs : QueuesBounded s) :
    QueuesBounded (s.cancelOp p r) := by
  unfold RequestQueueCollection.cancelOp RequestQueue.cancelRequest
  intro q'
  by_cases h : q' = RequestQueueCollection.getQueue p r.command
  · subst h
    split
    · simpa using hs _
    · simpa using hs _
  · split
    · simp only [RequestQueueCollection.getQ_emitAll]
      rw [RequestQueueCollection.getQ_setQ_ne h]
      exact hs q'
    · simp only [RequestQueueCollection.getQ_emitAll]
      rw [RequestQueueCollection.getQ_setQ_ne h]
      exact hs q'

theorem applyOp_bounded (p : Prioritization) {mk : MakeRequest} (hmk : QueuePreserving mk)
    (s : RequestQueueCollection) (op : SchedOp) (hs : QueuesBounded s) :
    QueuesBounded (applyOp p mk s op) := by
  cases op with
  | enqueue r => exact enqueueOp_bounded p hmk r s hs
  | dequeue c n => exact dequeueOp_bounded p c n s hs
  | cancel r => exact cancelOp_bounded p r s hs
  | drain => exact drain_bounded hmk s hs

theorem runOps_bounded (p : Prioritization) {mk : MakeRequest} (hmk : QueuePreserving mk) :
    ∀ (ops : List SchedOp) (s : RequestQueueCollection), QueuesBounded s →
      QueuesBounded (runOps p mk s ops) := by
  intro ops
  induction ops with
  | nil => intro s hs; exact hs
  | cons op rest ih =>
    intro s hs
    exact ih _ (applyOp_bounded p hmk s op hs)

theorem initCollection_bounded (concurrency : Nat) :
    QueuesBounded (initCollection concurrency) := by
  intro q
  cases q <;> simp [initCollection, mkQueue, RequestQueueCollection.getQ]

theorem mkFresh_queuePreserving (ids : Nat → Nat) : QueuePreserving (mkFresh ids) := by
  intro r s
  constructor
  · intro q
    simp [mkFresh, BindResult.state]
  · simp [mkFresh, BindResult.state]

/-- **C1.** Reachable-state invariant: starting from an empty scheduler,
after any sequence of `enqueue`, `dequeue`, `cancel` and `drain` operations
(the transport binding being an ordinary queue-preserving transport; its
sequence ids play no role in the bound), every priority queue satisfies
`|waiting| ≤ maxConcurrency`; and a single `processPending` pass preserves
the bound and removes at most its entry slack
`maxConcurrency - |waiting|` requests from the head of `pending` (one
transport invocation per removed request). -/
theorem c1_waiting_bounded (p : Prioritization) (mk : MakeRequest)
    (hmk : QueuePreserving mk) (concurrency : Nat) :
    (∀ ops : List SchedOp, QueuesBounded (runOps p mk (initCollection concurrency) ops)) ∧
    (∀ (s : RequestQueueCollection) (q : QueueId), QueuesBounded s →
      QueuesBounded (s.processPending mk q).state ∧
      ∃ j, j ≤ (s.getQ q).maxSize - (s.getQ q).waiting.length ∧
        ((s.processPending mk q).state.getQ q).pending = ((s.getQ q).pending).drop j) := by
  constructor
  · intro ops
    exact runOps_bounded p hmk ops _ (initCollection_bounded concurrency)
  · intro s q hs
    refine ⟨processPending_bounded hmk q s hs, ?_⟩
    obtain ⟨j, hj, hpend, _, _, _⟩ := processPending_bound hmk q s
    exact ⟨j, hj, hpend⟩

/-- Witness for C1 at a concrete scheduler run. -/
theorem c1_waiting_bounded_witness :
    QueuesBounded (runOps pEx mkEx (initCollection 4)
      [SchedOp.enqueue ⟨1, "ncmd"⟩, SchedOp.enqueue ⟨2, "other"⟩, SchedOp.drain]) :=
  (c1_waiting_bounded pEx mkEx (mkFresh_queuePreserving (fun n => n)) 4).1
    [SchedOp.enqueue ⟨1, "ncmd"⟩, SchedOp.enqueue ⟨2, "other"⟩, SchedOp.drain]

/-! ## More structural helper lemmas -/

theorem setQ_getQ_self (s : RequestQueueCollection) (q : QueueId) :
    s.setQ q (s.getQ q) = s := by
  cases q <;> rfl

theorem emitAll_nil (s : RequestQueueCollection) : s.emitAll [] = s := by
  simp [RequestQueueCollection.emitAll]

theorem emit_eq_emitAll (s : RequestQueueCollection) (e : QueueEvent) :
    s.emit e = s.emitAll [e] := rfl

theorem emitAll_emitAll (s : RequestQueueCollection) (xs ys : List QueueEvent) :
    (s.emitAll xs).emitAll ys = s.emitAll (xs ++ ys) := by
  simp [RequestQueueCollection.emitAll]

theorem emitAll_setQ (s : RequestQueueCollection) (q : QueueId) (a : RequestQueue)
    (evs : List QueueEvent) :
    (s.setQ q a).emitAll evs = (s.emitAll evs).setQ q a := by
  cases q <;> rfl

theorem emit_setQ (s : RequestQueueCollection) (q : QueueId) (a : RequestQueue)
    (e : QueueEvent) :
    (s.setQ q a).emit e = (s.emit e).setQ q a := by
  cases q <;> rfl

@[simp]
theorem RequestQueue.withPending_withPending (x : RequestQueue) (a a' : List Request) :
    (x.withPending a).withPending a' = x.withPending a' := rfl

@[simp]
theorem RequestQueue.withWaiting_withWaiting (x : RequestQueue)
    (b b' : List (Nat × Request)) :
    (x.withWaiting b).withWaiting b' = x.withWaiting b' := rfl

@[simp]
theorem RequestQueue.withWaiting_withPending (x : RequestQueue) (a : List Request)
    (b : List (Nat × Request)) :
    (x.withWaiting b).withPending a = (x.withPending a).withWaiting b := rfl

theorem getQ_priority (s : RequestQueueCollection) :
    s.getQ QueueId.priority = s.priorityQueue := rfl

theorem getQ_normal (s : RequestQueueCollection) :
    s.getQ QueueId.normal = s.normalQueue := rfl

theorem getQ_deferred (s : RequestQueueCollection) :
    s.getQ QueueId.deferred = s.deferredQueue := rfl

@[simp]
theorem priorityQueue_withFlag (s : RequestQueueCollection) (b : Bool) :
    (s.withFlag b).priorityQueue = s.priorityQueue := rfl

@[simp]
theorem normalQueue_withFlag (s : RequestQueueCollection) (b : Bool) :
    (s.withFlag b).normalQueue = s.normalQueue := rfl

@[simp]
theorem deferredQueue_withFlag (s : RequestQueueCollection) (b : Bool) :
    (s.withFlag b).deferredQueue = s.deferredQueue := rfl

/-- The classified queue of `cancelRequest` keeps its waiting map and bound;
all other queues are untouched. -/
theorem cancelOp_waiting (p : Prioritization) (r : Request) (s : RequestQueueCollection)
    (q : QueueId) :
    ((s.cancelOp p r).getQ q).waiting = (s.getQ q).waiting ∧
    ((s.cancelOp p r).getQ q).maxSize = (s.getQ q).maxSize := by
  unfold RequestQueueCollection.cancelOp RequestQueue.cancelRequest
  by_cases hq : q = RequestQueueCollection.getQueue p r.command
  · subst hq
    split <;> simp
  · split <;>
      (simp only [RequestQueueCollection.getQ_emitAll];
       rw [RequestQueueCollection.getQ_setQ_ne hq];
       exact ⟨rfl, rfl⟩)

/-- `dequeueOp` leaves every queue other than the classified one untouched. -/
theorem dequeueOp_frame (p : Prioritization) (c : String) (n : Nat)
    (s : RequestQueueCollection) (q : QueueId)
    (h : q ≠ RequestQueueCollection.getQueue p c) :
    ((s.dequeueOp p c n).1.getQ q) = s.getQ q := by
  unfold RequestQueueCollection.dequeueOp
  simp only [RequestQueueCollection.getQ_emitAll]
  rw [RequestQueueCollection.getQ_setQ_ne h]

/-- `dequeueOp` with an absent sequence id leaves the whole state unchanged. -/
theorem dequeueOp_none (p : Prioritization) (c : String) (n : Nat)
    (s : RequestQueueCollection)
    (h : mapGet ((s.getQ (RequestQueueCollection.getQueue p c)).waiting) n = none) :
    (s.dequeueOp p c n).1 = s := by
  unfold RequestQueueCollection.dequeueOp RequestQueue.dequeue
  rw [h]
  simp [emitAll_nil, setQ_getQ_self]

/-- When the Priority queue is full, `enqueueOp` only pushes: the triggered
`drain` is a guard no-op, so the resulting state is the push itself. -/
theorem enqueueOp_state_of_priorityFull (p : Prioritization) (mk : MakeRequest)
    (r : Request) (s : RequestQueueCollection)
    (h : s.priorityQueue.isFull = true) :
    (s.enqueueOp p mk r).state
      = (s.emitAll [QueueEvent.enqueueRequest
            (s.getQ (RequestQueueCollection.getQueue p r.command)).name r.command]).setQ
          (RequestQueueCollection.getQueue p r.command)
          ((s.getQ (RequestQueueCollection.getQueue p r.command)).withPending
            ((s.getQ (RequestQueueCollection.getQueue p r.command)).pending ++ [r])) := by
  unfold RequestQueueCollection.enqueueOp RequestQueue.enqueue
  have hfull : ((s.emitAll [QueueEvent.enqueueRequest
      (s.getQ (RequestQueueCollection.getQueue p r.command)).name r.command]).setQ
      (RequestQueueCollection.getQueue p r.command)
      ((s.getQ (RequestQueueCollection.getQueue p r.command)).withPending
        ((s.getQ (RequestQueueCollection.getQueue p r.command)).pending ++ [r]))).priorityQueue.isFull
      = true := by
    show (RequestQueueCollection.getQ _ QueueId.priority).isFull = true
    by_cases hq : QueueId.priority = RequestQueueCollection.getQueue p r.command
    · rw [← hq, RequestQueueCollection.getQ_setQ_same]
      simpa [RequestQueue.isFull, getQ_priority] using h
    · rw [RequestQueueCollection.getQ_setQ_ne hq]
      simpa [getQ_priority] using h
  rw [drain_of_priorityFull mk _ hfull]
  rfl

/-- **C2.** When `drain` passes its three guards and the Priority queue has
pending work, the pass drains only the Priority queue: the Normal and
Deferred queues (their pending lists and waiting maps alike) are left
completely unchanged, whatever pending work and slack they have. The
transport binding is an ordinary queue-preserving transport. -/
theorem c2_priority_preempts (mk : MakeRequest) (hmk : QueuePreserving mk)
    (s : RequestQueueCollection)
    (h1 : s.isProcessing = false)
    (h2 : s.priorityQueue.isFull = false)
    (h3 : (s.normalQueue.isFull && s.deferredQueue.isFull) = false)
    (h4 : s.priorityQueue.hasPending = true) :
    (s.drain mk).state.normalQueue = s.normalQueue ∧
    (s.drain mk).state.deferredQueue = s.deferredQueue := by
  have hn := processPending_frame hmk QueueId.priority (s.withFlag true) QueueId.normal
    (by decide)
  have hd := processPending_frame hmk QueueId.priority (s.withFlag true) QueueId.deferred
    (by decide)
  simp only [getQ_normal, getQ_deferred, normalQueue_withFlag, deferredQueue_withFlag] at hn hd
  unfold RequestQueueCollection.drain
  simp only [h1, h2, h3, Bool.false_eq_true, if_false, priorityQueue_withFlag, h4, if_true]
  split
  · next s2 heq =>
    rw [heq] at hn hd
    simp only [StepResult.state] at hn hd
    exact ⟨hn, hd⟩
  · next s2 heq =>
    rw [heq] at hn hd
    simp only [StepResult.state] at hn hd
    exact ⟨hn, hd⟩

/-- Witness for C2 at a concrete scheduler state. -/
theorem c2_priority_preempts_witness :
    (sC2.drain mkEx).state.normalQueue = sC2.normalQueue ∧
    (sC2.drain mkEx).state.deferredQueue = sC2.deferredQueue :=
  c2_priority_preempts mkEx (mkFresh_queuePreserving (fun n => n)) sC2
    rfl (by decide) (by decide) (by decide)

/-- **C4.** A full Priority queue blocks everything: whenever
`priorityQueue.isFull`, every `drain` (with any transport binding) returns
immediately with the whole scheduler state unchanged, and every external
operation other than a successful dequeue from the Priority queue leaves the
Priority queue's waiting map (hence its fullness) intact — the block persists
until a dequeue removes the outstanding priority request. -/
theorem c4_priority_full_blocks (mk : MakeRequest) (s : RequestQueueCollection)
    (h : s.priorityQueue.isFull = true) :
    (s.drain mk = .ok s) ∧
    (∀ (p : Prioritization) (op : SchedOp),
      (∀ c n, op = SchedOp.dequeue c n →
        RequestQueueCollection.getQueue p c = QueueId.priority →
        mapGet s.priorityQueue.waiting n = none) →
      ((applyOp p mk s op).priorityQueue.waiting = s.priorityQueue.waiting ∧
       (applyOp p mk s op).priorityQueue.maxSize = s.priorityQueue.maxSize ∧
       (applyOp p mk s op).priorityQueue.isFull = true)) := by
  refine ⟨drain_of_priorityFull mk s h, ?_⟩
  intro p op hop
  have main : (applyOp p mk s op).priorityQueue.waiting = s.priorityQueue.waiting ∧
      (applyOp p mk s op).priorityQueue.maxSize = s.priorityQueue.maxSize := by
    cases op with
    | enqueue r =>
      show ((s.enqueueOp p mk r).state.priorityQueue.waiting = _) ∧
        ((s.enqueueOp p mk r).state.priorityQueue.maxSize = _)
      rw [enqueueOp_state_of_priorityFull p mk r s h]
      show ((RequestQueueCollection.getQ _ QueueId.priority).waiting = _) ∧
        ((RequestQueueCollection.getQ _ QueueId.priority).maxSize = _)
      by_cases hq : QueueId.priority = RequestQueueCollection.getQueue p r.command
      · rw [← hq, RequestQueueCollection.getQ_setQ_same]
        exact ⟨rfl, rfl⟩
      · rw [RequestQueueCollection.getQ_setQ_ne hq]
        exact ⟨rfl, rfl⟩
    | dequeue c n =>
      show ((s.dequeueOp p c n).1.priorityQueue.waiting = _) ∧
        ((s.dequeueOp p c n).1.priorityQueue.maxSize = _)
      by_cases hq : QueueId.priority = RequestQueueCollection.getQueue p c
      · have hnone := hop c n rfl hq.symm
        rw [dequeueOp_none p c n s (by rw [← hq]; simpa [getQ_priority] using hnone)]
        exact ⟨rfl, rfl⟩
      · have := dequeueOp_frame p c n s QueueId.priority hq
        rw [getQ_priority] at this
        rw [this]
        exact ⟨rfl, rfl⟩
    | cancel r =>
      have h1 := cancelOp_waiting p r s QueueId.priority
      rw [getQ_priority, getQ_priority] at h1
      exact h1
    | drain =>
      show ((s.drain mk).state.priorityQueue.waiting = _) ∧
        ((s.drain mk).state.priorityQueue.maxSize = _)
      rw [drain_of_priorityFull mk s h]
      exact ⟨rfl, rfl⟩
  refine ⟨main.1, main.2, ?_⟩
  rw [RequestQueue.isFull] at h ⊢
  rw [main.1, main.2]
  exact h

/-- Witness for C4 at a concrete scheduler state: the drain is a no-op and an
unrelated enqueue keeps the Priority queue full. -/
theorem c4_priority_full_blocks_witness :
    sC4.drain mkEx = .ok sC4 ∧
    (applyOp pEx mkEx sC4 (SchedOp.enqueue ⟨3, "ncmd"⟩)).priorityQueue.isFull = true :=
  ⟨(c4_priority_full_blocks mkEx sC4 (by decide)).1,
   ((c4_priority_full_blocks mkEx sC4 (by decide)).2 pEx (SchedOp.enqueue ⟨3, "ncmd"⟩)
     (fun c n hcn => by cases hcn)).2.2⟩

/-- **C5.** When the Normal and Deferred queues are simultaneously full,
`drain` (with any transport binding) returns immediately: the whole scheduler
state — all three queues and the event log — is unchanged, including the
Priority queue whatever its pending work and slack. -/
theorem c5_both_full_noop (s : RequestQueueCollection)
    (hn : s.normalQueue.isFull = true) (hd : s.deferredQueue.isFull = true) :
    ∀ mk : MakeRequest, s.drain mk = .ok s :=
  fun mk => drain_of_bothFull mk s hn hd

/-- Witness for C5 at a concrete scheduler state. -/
theorem c5_both_full_noop_witness : sC5.drain mkEx = .ok sC5 :=
  c5_both_full_noop sC5 (by decide) (by decide) mkEx

/-- **C6 (counterexample).** The claim says a request enqueued synchronously
by the transport binding during a drain pass "is only dispatched by a later,
externally triggered drain". False: after the single external
`enqueue(reqA)` — with no later drain — the reentrantly enqueued `reqB` has
already been dispatched by the same outer pass (it sits in the Normal
queue's waiting map under id 8 and is no longer pending), because the
`processPending` loop re-reads `_pending` on every iteration. -/
theorem c6_counterexample :
    ((((initCollection 4).enqueueOp pEx mkReenter reqA).state.normalQueue).waiting.map Prod.snd
      = [reqA, reqB]) ∧
    ((((initCollection 4).enqueueOp pEx mkReenter reqA).state.normalQueue).pending = []) := by
  constructor
  · decide
  · decide

/-- **C6 (amended).** A `dispatch` callback that itself calls `enqueue`
synchronously does not cause `drain` to recurse or dispatch: while the
reentrancy guard is set, any `drain` is an immediate no-op and a nested
`enqueue` only appends the new request to its classified queue's pending
list (emitting the enqueue event) without dispatching anything. The new
request may however be picked up later within the same outer guarded pass;
it is not necessarily delayed to the next externally triggered drain. -/
theorem c6_reentrancy_guard (mk mk2 : MakeRequest) (p : Prioritization) (r : Request)
    (s : RequestQueueCollection) (h : s.isProcessing = true) :
    s.drain mk = .ok s ∧
    (s.enqueueOp p mk2 r).state
      = (s.emitAll [QueueEvent.enqueueRequest
            (s.getQ (RequestQueueCollection.getQueue p r.command)).name r.command]).setQ
          (RequestQueueCollection.getQueue p r.command)
          ((s.getQ (RequestQueueCollection.getQueue p r.command)).withPending
            ((s.getQ (RequestQueueCollection.getQueue p r.command)).pending ++ [r])) := by
  refine ⟨drain_of_isProcessing mk s h, ?_⟩
  unfold RequestQueueCollection.enqueueOp RequestQueue.enqueue
  rw [drain_of_isProcessing mk2 _ (by simpa using h)]
  rfl

/-- Witness for the amended C6 at a concrete mid-pass state. -/
theorem c6_reentrancy_guard_witness :
    sC6.drain mkEx = .ok sC6 ∧
    (sC6.enqueueOp pEx mkEx ⟨3, "ncmd"⟩).state
      = (sC6.emitAll [QueueEvent.enqueueRequest
            (sC6.getQ (RequestQueueCollection.getQueue pEx "ncmd")).name "ncmd"]).setQ
          (RequestQueueCollection.getQueue pEx "ncmd")
          ((sC6.getQ (RequestQueueCollection.getQueue pEx "ncmd")).withPending
            ((sC6.getQ (RequestQueueCollection.getQueue pEx "ncmd")).pending ++ [⟨3, "ncmd"⟩])) :=
  c6_reentrancy_guard mkEx mkEx pEx ⟨3, "ncmd"⟩ sC6 rfl

/-- **C7.** `cancel(request)` removes the request from its classified queue's
pending list and synchronously invokes its `onError` exactly once with the
cancellation error carrying the command name if and only if the request is
currently pending; otherwise — in particular when the request is already in
`waiting`, or on a second cancel — it invokes no callback and leaves the
whole scheduler state unchanged. -/
theorem c7_cancel_semantics (p : Prioritization) (r : Request) (s : RequestQueueCollection) :
    (r ∈ (s.getQ (RequestQueueCollection.getQueue p r.command)).pending →
      s.cancelOp p r
        = (s.setQ (RequestQueueCollection.getQueue p r.command)
            ((s.getQ (RequestQueueCollection.getQueue p r.command)).withPending
              ((s.getQ (RequestQueueCollection.getQueue p r.command)).pending.erase r))).emitAll
            [QueueEvent.requestOnError r ("Pending request cancelled: " ++ r.command)]) ∧
    (r ∉ (s.getQ (RequestQueueCollection.getQueue p r.command)).pending →
      s.cancelOp p r = s) := by
  constructor
  · intro hmem
    unfold RequestQueueCollection.cancelOp RequestQueue.cancelRequest
    rw [if_pos hmem]
  · intro hmem
    unfold RequestQueueCollection.cancelOp RequestQueue.cancelRequest
    rw [if_neg hmem]
    rw [setQ_getQ_self, emitAll_nil]

/-- Witness for C7: cancelling the pending request removes it and fires
`onError` once; cancelling the already-waiting request is a no-op. -/
theorem c7_cancel_semantics_witness :
    (sC7.cancelOp pEx ⟨2, "ncmd"⟩
      = (sC7.setQ (RequestQueueCollection.getQueue pEx "ncmd")
          ((sC7.getQ (RequestQueueCollection.getQueue pEx "ncmd")).withPending
            ((sC7.getQ (RequestQueueCollection.getQueue pEx "ncmd")).pending.erase ⟨2, "ncmd"⟩))).emitAll
          [QueueEvent.requestOnError ⟨2, "ncmd"⟩ ("Pending request cancelled: " ++ "ncmd")]) ∧
    (sC7.cancelOp pEx ⟨9, "ncmd"⟩ = sC7) :=
  ⟨(c7_cancel_semantics pEx ⟨2, "ncmd"⟩ sC7).1 (by decide),
   (c7_cancel_semantics pEx ⟨9, "ncmd"⟩ sC7).2 (by decide)⟩

/-- **C8.** `dequeue(command, id)` returns exactly the entry of the
classified queue's waiting map at `id`: when present it removes that entry
(emitting the dequeue event, touching nothing else), when absent it returns
nothing and leaves the whole state unchanged, and in either case no
transport dispatch happens (`dequeueOp` takes no transport binding at all,
and the dispatch events of the trace are unchanged). -/
theorem c8_dequeue_semantics (p : Prioritization) (c : String) (n : Nat)
    (s : RequestQueueCollection) :
    ((s.dequeueOp p c n).2
      = mapGet ((s.getQ (RequestQueueCollection.getQueue p c)).waiting) n) ∧
    (∀ r, mapGet ((s.getQ (RequestQueueCollection.getQueue p c)).waiting) n = some r →
      (s.dequeueOp p c n).1
        = (s.setQ (RequestQueueCollection.getQueue p c)
            ((s.getQ (RequestQueueCollection.getQueue p c)).withWaiting
              (mapDelete ((s.getQ (RequestQueueCollection.getQueue p c)).waiting) n))).emitAll
            [QueueEvent.dequeueRequest (s.getQ (RequestQueueCollection.getQueue p c)).name
              r.command n]) ∧
    (mapGet ((s.getQ (RequestQueueCollection.getQueue p c)).waiting) n = none →
      (s.dequeueOp p c n).1 = s) ∧
    ((s.dequeueOp p c n).1.trace.filter QueueEvent.isDispatch
      = s.trace.filter QueueEvent.isDispatch) := by
  refine ⟨?_, ?_, dequeueOp_none p c n s, ?_⟩
  · unfold RequestQueueCollection.dequeueOp RequestQueue.dequeue
    split
    · next r heq => simp [heq]
    · next heq => simp [heq]
  · intro r hr
    unfold RequestQueueCollection.dequeueOp RequestQueue.dequeue
    rw [hr]
  · unfold RequestQueueCollection.dequeueOp RequestQueue.dequeue
    split
    · next r heq => simp [QueueEvent.isDispatch]
    · next heq => simp

/-- Witness for C8: dequeuing the present id returns the request; an unknown
id leaves the state unchanged. -/
theorem c8_dequeue_semantics_witness :
    ((sC8.dequeueOp pEx "ncmd" 5).2 = some ⟨9, "ncmd"⟩) ∧
    ((sC8.dequeueOp pEx "ncmd" 3).1 = sC8) :=
  ⟨((c8_dequeue_semantics pEx "ncmd" 5 sC8).1).trans (by decide),
   (c8_dequeue_semantics pEx "ncmd" 3 sC8).2.2.1 (by decide)⟩

/-- While the reentrancy flag is set, every external operation keeps it set
and never grows any waiting map (no dispatch can happen: `drain` is a guard
no-op). -/
theorem flagged_applyOp (p : Prioritization) (mk : MakeRequest)
    (s : RequestQueueCollection) (h : s.isProcessing = true) (op : SchedOp) :
    (applyOp p mk s op).isProcessing = true ∧
    ∀ q, ((applyOp p mk s op).getQ q).waiting.Sublist ((s.getQ q).waiting) := by
  cases op with
  | enqueue r =>
    simp only [applyOp]
    unfold RequestQueueCollection.enqueueOp RequestQueue.enqueue
    rw [drain_of_isProcessing mk _ (by simpa using h)]
    refine ⟨by simpa [StepResult.state] using h, ?_⟩
    intro q
    simp only [StepResult.state]
    by_cases hq : q = RequestQueueCollection.getQueue p r.command
    · subst hq
      simp only [RequestQueueCollection.getQ_setQ_same, RequestQueue.waiting_withPending,
        RequestQueueCollection.getQ_emitAll]
      exact List.Sublist.refl _
    · rw [RequestQueueCollection.getQ_setQ_ne hq]
      simp only [RequestQueueCollection.getQ_emitAll]
      exact List.Sublist.refl _
  | dequeue c n =>
    simp only [applyOp]
    constructor
    · unfold RequestQueueCollection.dequeueOp
      simpa using h
    · intro q
      by_cases hq : q = RequestQueueCollection.getQueue p c
      · subst hq
        unfold RequestQueueCollection.dequeueOp RequestQueue.dequeue
        split
        · next r heq =>
          simp only [RequestQueueCollection.getQ_emitAll,
            RequestQueueCollection.getQ_setQ_same, RequestQueue.waiting_withWaiting]
          exact mapDelete_sublist _ _
        · next heq =>
          simp only [RequestQueueCollection.getQ_emitAll,
            RequestQueueCollection.getQ_setQ_same]
          exact List.Sublist.refl _
      · rw [dequeueOp_frame p c n s q hq]
  | cancel r =>
    simp only [applyOp]
    constructor
    · unfold RequestQueueCollection.cancelOp
      simpa using h
    · intro q
      rw [(cancelOp_waiting p r s q).1]
  | drain =>
    simp only [applyOp]
    rw [drain_of_isProcessing mk s h]
    exact ⟨h, fun q => List.Sublist.refl _⟩

theorem flagged_runOps (p : Prioritization) (mk : MakeRequest) :
    ∀ (ops : List SchedOp) (s : RequestQueueCollection), s.isProcessing = true →
      (runOps p mk s ops).isProcessing = true ∧
      ∀ q, ((runOps p mk s ops).getQ q).waiting.Sublist ((s.getQ q).waiting) := by
  intro ops
  induction ops with
  | nil => intro s h; exact ⟨h, fun q => List.Sublist.refl _⟩
  | cons op rest ih =>
    intro s h
    obtain ⟨h1, h2⟩ := flagged_applyOp p mk s h op
    obtain ⟨h3, h4⟩ := ih (applyOp p mk s op) h1
    exact ⟨h3, fun q => (h4 q).trans (h2 q)⟩

/-- A queue-preserving binding's exception leaves the reentrancy flag set:
the state propagated out of a throwing `drain` has `isProcessing = true`. -/
theorem drain_thrown_flag {mk : MakeRequest} (hmk : QueuePreserving mk)
    (s t : RequestQueueCollection) (hdr : s.drain mk = .thrown t) :
    t.isProcessing = true := by
  unfold RequestQueueCollection.drain at hdr
  split at hdr
  · simp at hdr
  · split at hdr
    · simp at hdr
    · split at hdr
      · simp at hdr
      · split at hdr
        · -- priority branch
          split at hdr
          · next s2 heq =>
            have hf := processPending_flag hmk QueueId.priority (s.withFlag true)
            rw [heq] at hf
            simp only [StepResult.state, RequestQueueCollection.isProcessing_withFlag] at hf
            cases hdr
            exact hf
          · simp at hdr
        · -- normal-then-deferred branch
          split at hdr
          · next s2 heq =>
            have hf : ((if (s.withFlag true).normalQueue.hasPending = true then
                RequestQueueCollection.processPending mk QueueId.normal (s.withFlag true)
                else .ok (s.withFlag true))).state.isProcessing = true := by
              split
              · rw [processPending_flag hmk QueueId.normal (s.withFlag true)]
                simp
              · simp [StepResult.state]
            rw [heq] at hf
            simp only [StepResult.state] at hf
            cases hdr
            exact hf
          · next s2 heq =>
            have hf : ((if (s.withFlag true).normalQueue.hasPending = true then
                RequestQueueCollection.processPending mk QueueId.normal (s.withFlag true)
                else .ok (s.withFlag true))).state.isProcessing = true := by
              split
              · rw [processPending_flag hmk QueueId.normal (s.withFlag true)]
                simp
              · simp [StepResult.state]
            rw [heq] at hf
            simp only [StepResult.state] at hf
            split at hdr
            · next s3 heq3 =>
              have hf3 : ((if s2.deferredQueue.hasPending = true then
                  RequestQueueCollection.processPending mk QueueId.deferred s2
                  else .ok s2)).state.isProcessing = true := by
                split
                · rw [processPending_flag hmk QueueId.deferred s2]
                  exact hf
                · simpa [StepResult.state] using hf
              rw [heq3] at hf3
              simp only [StepResult.state] at hf3
              cases hdr
              exact hf3
            · simp at hdr

/-- **C9.** If the injected transport binding throws during a drain pass,
the exception propagates with `_isProcessing` still `true` (the resetting
assignments are skipped), and nothing ever resets it: from any state with
the flag set, every `drain` is an immediate no-op, every operation sequence
keeps the flag set, and no waiting map ever grows — no pending request of
any class is ever dispatched again on that scheduler instance. -/
theorem c9_thrown_flag_stuck (mk : MakeRequest) (hmk : QueuePreserving mk) :
    (∀ (s t : RequestQueueCollection), s.drain mk = .thrown t → t.isProcessing = true) ∧
    (∀ s : RequestQueueCollection, s.isProcessing = true →
      (∀ mk2 : MakeRequest, s.drain mk2 = .ok s) ∧
      (∀ (p : Prioritization) (ops : List SchedOp),
        (runOps p mk s ops).isProcessing = true ∧
        ∀ q, ((runOps p mk s ops).getQ q).waiting.Sublist ((s.getQ q).waiting))) := by
  refine ⟨fun s t hdr => drain_thrown_flag hmk s t hdr, ?_⟩
  intro s h
  exact ⟨fun mk2 => drain_of_isProcessing mk2 s h, fun p ops => flagged_runOps p mk ops s h⟩

/-- Witness for C9 at a concrete stuck state: drain is a no-op and the flag
survives an enqueue and a drain. -/
theorem c9_thrown_flag_stuck_witness :
    (sC9.drain mkEx = .ok sC9) ∧
    (runOps pEx mkEx sC9 [SchedOp.enqueue ⟨4, "ncmd"⟩, SchedOp.drain]).isProcessing = true :=
  ⟨(((c9_thrown_flag_stuck mkEx (mkFresh_queuePreserving (fun n => n))).2 sC9 rfl).1 mkEx),
   (((c9_thrown_flag_stuck mkEx (mkFresh_queuePreserving (fun n => n))).2 sC9 rfl).2 pEx
     [SchedOp.enqueue ⟨4, "ncmd"⟩, SchedOp.drain]).1⟩

/-- **C10.** If the transport binding throws when invoked for the request
`r` that `processPending` has just popped, then `r` has been shifted out of
`pending` but never stored in `waiting`: afterwards `r` is in neither the
pending list nor the waiting map of any queue, the only event emitted by the
pass is the batch-start event (no `onError`/`onSuccess` callback for `r` is
ever invoked — in particular a subsequent `cancel(r)` is a total no-op), and
the requests enqueued behind `r` remain in `pending` in order. -/
theorem c10_throwing_dispatch (mk : MakeRequest) (q : QueueId)
    (s : RequestQueueCollection) (r : Request) (rest : List Request)
    (hthrow : ∀ u, mk r u = .thrown u)
    (hpend : (s.getQ q).pending = r :: rest)
    (hslack : (s.getQ q).waiting.length < (s.getQ q).maxSize)
    (hnotrest : r ∉ rest)
    (hnowait : ∀ q', r ∉ ((s.getQ q').waiting).map Prod.snd)
    (hnopend : ∀ q', q' ≠ q → r ∉ (s.getQ q').pending) :
    (s.processPending mk q
      = .thrown ((s.emit (.processRequestStart (s.getQ q).name)).setQ q
          ((s.getQ q).withPending rest))) ∧
    (∀ q', r ∉ (((s.processPending mk q).state.getQ q').pending) ∧
      r ∉ ((((s.processPending mk q).state.getQ q').waiting).map Prod.snd)) ∧
    ((s.processPending mk q).state.trace
      = s.trace ++ [QueueEvent.processRequestStart (s.getQ q).name]) ∧
    (∀ p : Prioritization,
      ((s.processPending mk q).state.cancelOp p r) = (s.processPending mk q).state) := by
  obtain ⟨k, hk⟩ : ∃ k, (s.getQ q).maxSize - (s.getQ q).waiting.length = k + 1 :=
    ⟨(s.getQ q).maxSize - (s.getQ q).waiting.length - 1, by omega⟩
  have hp1 : ((s.emit (.processRequestStart (s.getQ q).name)).getQ q).pending = r :: rest := by
    simpa using hpend
  have hloop : RequestQueueCollection.processLoop mk q (k + 1)
      (s.emit (.processRequestStart (s.getQ q).name))
      = .thrown ((s.emit (.processRequestStart (s.getQ q).name)).setQ q
          (((s.emit (.processRequestStart (s.getQ q).name)).getQ q).withPending rest)) := by
    unfold RequestQueueCollection.processLoop
    split
    · next heq => rw [hp1] at heq; cases heq
    · next item rest2 heq =>
      rw [hp1] at heq
      cases heq
      rw [hthrow]
  have hmain : s.processPending mk q
      = .thrown ((s.emit (.processRequestStart (s.getQ q).name)).setQ q
          ((s.getQ q).withPending rest)) := by
    unfold RequestQueueCollection.processPending
    rw [if_neg (by simp [hpend])]
    rw [hk, hloop]
    simp only [RequestQueueCollection.getQ_emit]
  have habsent : ∀ q', r ∉ (((s.processPending mk q).state.getQ q').pending) ∧
      r ∉ ((((s.processPending mk q).state.getQ q').waiting).map Prod.snd) := by
    intro q'
    rw [hmain]
    simp only [StepResult.state]
    by_cases hq : q' = q
    · subst hq
      rw [RequestQueueCollection.getQ_setQ_same]
      exact ⟨by simpa using hnotrest, by simpa using hnowait q'⟩
    · rw [RequestQueueCollection.getQ_setQ_ne hq]
      simp only [RequestQueueCollection.getQ_emit]
      exact ⟨hnopend q' hq, hnowait q'⟩
  refine ⟨hmain, habsent, ?_, ?_⟩
  · rw [hmain]
    simp [StepResult.state]
  · intro p
    unfold RequestQueueCollection.cancelOp RequestQueue.cancelRequest
    rw [if_neg ((habsent (RequestQueueCollection.getQueue p r.command)).1)]
    rw [setQ_getQ_self, emitAll_nil]

/-- Witness for C10 at a concrete state: the pass throws, `⟨7, "ncmd"⟩`
vanishes from the system, and `⟨8, "ncmd"⟩` stays pending. -/
theorem c10_throwing_dispatch_witness :
    sC10.processPending mkThrow7 QueueId.normal
      = .thrown ((sC10.emit (.processRequestStart (sC10.getQ QueueId.normal).name)).setQ
          QueueId.normal ((sC10.getQ QueueId.normal).withPending [⟨8, "ncmd"⟩])) :=
  (c10_throwing_dispatch mkThrow7 QueueId.normal sC10 ⟨7, "ncmd"⟩ [⟨8, "ncmd"⟩]
    (fun u => by simp [mkThrow7]) (by decide) (by decide) (by decide)
    (fun q' => by cases q' <;> decide) (fun q' hq => by cases q' <;> first | decide | exact absurd rfl hq)).1

@[simp]
theorem assignIds_nil (ids : Nat → Nat) (n0 : Nat) : assignIds ids n0 [] = [] := rfl

@[simp]
theorem assignIds_cons (ids : Nat → Nat) (n0 : Nat) (r : Request) (rs : List Request) :
    assignIds ids n0 (r :: rs) = (ids n0, r) :: assignIds ids (n0 + 1) rs := rfl

@[simp]
theorem RequestQueue.withPending_self (q : RequestQueue) : q.withPending q.pending = q := rfl

@[simp]
theorem RequestQueue.withWaiting_self (q : RequestQueue) : q.withWaiting q.waiting = q := rfl

theorem processLoop_fresh_char (ids : Nat → Nat) (hinj : Function.Injective ids) (q : QueueId) :
    ∀ (fuel : Nat) (s : RequestQueueCollection),
      (s.getQ q).waiting.length + fuel ≤ (s.getQ q).maxSize →
      (∀ i, dispatchCount s.trace ≤ i → ids i ∉ ((s.getQ q).waiting).map Prod.fst) →
      RequestQueueCollection.processLoop (mkFresh ids) q fuel s
        = .ok ((s.emitAll ((assignIds ids (dispatchCount s.trace)
              (((s.getQ q).pending).take (min fuel ((s.getQ q).pending).length))).map
                (fun e => QueueEvent.dispatched e.2 e.1))).setQ q
            (((s.getQ q).withPending
                (((s.getQ q).pending).drop (min fuel ((s.getQ q).pending).length))).withWaiting
              ((s.getQ q).waiting ++ assignIds ids (dispatchCount s.trace)
                (((s.getQ q).pending).take (min fuel ((s.getQ q).pending).length))))) := by
  intro fuel
  induction fuel with
  | zero =>
    intro s _ _
    simp [RequestQueueCollection.processLoop, emitAll_nil, setQ_getQ_self]
  | succ n ih =>
    intro s hb hf
    unfold RequestQueueCollection.processLoop
    split
    · next heq =>
      rw [heq]
      simp only [List.length_nil, Nat.min_zero, List.take_nil, assignIds_nil, List.map_nil,
        emitAll_nil, List.drop_nil, List.append_nil]
      rw [← heq]
      simp [setQ_getQ_self]
    · next item rest heq =>
      rw [heq]
      simp only [mkFresh]
      have hset : mapSet ((s.getQ q).waiting) (ids (dispatchCount s.trace)) item
          = (s.getQ q).waiting ++ [(ids (dispatchCount s.trace), item)] :=
        mapSet_of_not_mem item (hf (dispatchCount s.trace) (Nat.le_refl _))
      simp only [RequestQueueCollection.setQ_trace, RequestQueueCollection.getQ_emit,
        RequestQueueCollection.getQ_setQ_same, RequestQueue.waiting_withPending, hset,
        emit_setQ, RequestQueueCollection.setQ_setQ, List.length_cons, Nat.succ_min_succ,
        List.take_succ_cons, List.drop_succ_cons, assignIds_cons, List.map_cons]
      rcases Nat.eq_zero_or_pos n with hn | hn
      · subst hn
        simp only [Nat.zero_min, List.take_zero, List.drop_zero, assignIds_nil, List.map_nil]
        split
        · simp [emit_eq_emitAll]
        · unfold RequestQueueCollection.processLoop
          simp [emit_eq_emitAll]
      · have hfull : (((s.getQ q).withPending rest).withWaiting
            ((s.getQ q).waiting ++ [(ids (dispatchCount s.trace), item)])).isFull = false := by
          simp only [RequestQueue.isFull, RequestQueue.maxSize_withWaiting,
            RequestQueue.maxSize_withPending, RequestQueue.waiting_withWaiting,
            List.length_append, List.length_cons, List.length_nil]
          simp only [decide_eq_false_iff_not]
          omega
        rw [hfull]
        simp only [Bool.false_eq_true, if_false]
        have hb3 : (((s.emit (QueueEvent.dispatched item (ids (dispatchCount s.trace)))).setQ q
              (((s.getQ q).withPending rest).withWaiting
                ((s.getQ q).waiting ++ [(ids (dispatchCount s.trace), item)]))).getQ q).waiting.length + n
            ≤ (((s.emit (QueueEvent.dispatched item (ids (dispatchCount s.trace)))).setQ q
              (((s.getQ q).withPending rest).withWaiting
                ((s.getQ q).waiting ++ [(ids (dispatchCount s.trace), item)]))).getQ q).maxSize := by
          simp only [RequestQueueCollection.getQ_setQ_same, RequestQueue.waiting_withWaiting,
            RequestQueue.maxSize_withWaiting, RequestQueue.maxSize_withPending,
            List.length_append, List.length_cons, List.length_nil]
          omega
        have hf3 : ∀ i, dispatchCount ((s.emit (QueueEvent.dispatched item (ids (dispatchCount s.trace)))).setQ q
              (((s.getQ q).withPending rest).withWaiting
                ((s.getQ q).waiting ++ [(ids (dispatchCount s.trace), item)]))).trace ≤ i →
            ids i ∉ ((((s.emit (QueueEvent.dispatched item (ids (dispatchCount s.trace)))).setQ q
              (((s.getQ q).withPending rest).withWaiting
                ((s.getQ q).waiting ++ [(ids (dispatchCount s.trace), item)]))).getQ q).waiting).map Prod.fst := by
          intro i hi
          simp only [RequestQueueCollection.setQ_trace, RequestQueueCollection.emit_trace,
            dispatchCount_append, dispatchCount_dispatched] at hi
          simp only [RequestQueueCollection.getQ_setQ_same, RequestQueue.waiting_withWaiting,
            List.map_append, List.map_cons, List.map_nil]
          intro hmem
          rcases List.mem_append.mp hmem with h1 | h2
          · exact hf i (by omega) h1
          · have h3 : ids i = ids (dispatchCount s.trace) := by simpa using h2
            have := hinj h3
            omega
        rw [ih _ hb3 hf3]
        simp only [RequestQueueCollection.getQ_setQ_same, RequestQueue.pending_withWaiting,
          RequestQueue.pending_withPending, RequestQueue.waiting_withWaiting,
          RequestQueueCollection.setQ_trace, RequestQueueCollection.emit_trace,
          RequestQueueCollection.emitAll_trace, dispatchCount_append, dispatchCount_dispatched,
          RequestQueue.withWaiting_withPending, RequestQueue.withPending_withPending,
          RequestQueue.withWaiting_withWaiting, emitAll_setQ, RequestQueueCollection.setQ_setQ,
          emit_eq_emitAll, emitAll_emitAll, List.singleton_append, List.append_assoc,
          List.cons_append, List.nil_append]

/-- Dispatch-marker events survive the dispatch filter unchanged. -/
theorem filter_isDispatch_map (l : List (Nat × Request)) :
    (l.map (fun e => QueueEvent.dispatched e.2 e.1)).filter QueueEvent.isDispatch
      = l.map (fun e => QueueEvent.dispatched e.2 e.1) := by
  induction l with
  | nil => rfl
  | cons a l ih => simp [QueueEvent.isDispatch, ih]

/-- **C3.** One `processPending` pass over a single queue, with the canonical
fresh-id transport binding, removes exactly the first
`k = min(maxConcurrency - |waiting|, |pending|)` requests from the head of
`pending` (natural subtraction makes this `max 0 (...)`), in strict FIFO
enqueue order; it invokes the transport binding once per removed request —
the dispatch events appended to the trace are exactly the removed requests
in order, so for requests A then B with slack for both, A is dispatched
before B — and stores each removed request in `waiting` keyed by the
sequence id the binding returned; all other queues are untouched. -/
theorem c3_fifo_exact_batch (ids : Nat → Nat) (hinj : Function.Injective ids)
    (q : QueueId) (s : RequestQueueCollection)
    (hw : (s.getQ q).waiting.length ≤ (s.getQ q).maxSize)
    (hfresh : ∀ i, ids i ∉ ((s.getQ q).waiting).map Prod.fst) :
    (((s.processPending (mkFresh ids) q).state.getQ q).pending
        = ((s.getQ q).pending).drop
            (min ((s.getQ q).maxSize - (s.getQ q).waiting.length) ((s.getQ q).pending).length)) ∧
    (((s.processPending (mkFresh ids) q).state.getQ q).waiting
        = (s.getQ q).waiting ++ assignIds ids (dispatchCount s.trace)
            (((s.getQ q).pending).take
              (min ((s.getQ q).maxSize - (s.getQ q).waiting.length) ((s.getQ q).pending).length))) ∧
    (((s.processPending (mkFresh ids) q).state.trace).filter QueueEvent.isDispatch
        = (s.trace.filter QueueEvent.isDispatch) ++ (assignIds ids (dispatchCount s.trace)
            (((s.getQ q).pending).take
              (min ((s.getQ q).maxSize - (s.getQ q).waiting.length) ((s.getQ q).pending).length))).map
            (fun e => QueueEvent.dispatched e.2 e.1)) ∧
    (∀ q', q' ≠ q → (s.processPending (mkFresh ids) q).state.getQ q' = s.getQ q') := by
  unfold RequestQueueCollection.processPending
  split
  · next hlen =>
    have hp : (s.getQ q).pending = [] := List.length_eq_zero.mp hlen
    rw [hp]
    simp [StepResult.state, hp]
  · next hlen =>
    have hchar := processLoop_fresh_char ids hinj q
      ((s.getQ q).maxSize - (s.getQ q).waiting.length)
      (s.emit (.processRequestStart (s.getQ q).name))
      (by simp; omega)
      (by intro i _; simpa using hfresh i)
    rw [hchar]
    simp only [StepResult.state, RequestQueueCollection.getQ_emit,
      RequestQueueCollection.getQ_setQ_same, RequestQueueCollection.emit_trace,
      dispatchCount_append, dispatchCount_processStart, Nat.add_zero,
      RequestQueue.pending_withWaiting, RequestQueue.pending_withPending,
      RequestQueue.waiting_withWaiting]
    refine ⟨trivial, trivial, ?_, ?_⟩
    · simp only [RequestQueueCollection.setQ_trace, RequestQueueCollection.emitAll_trace,
        RequestQueueCollection.emit_trace, List.append_assoc, List.filter_append,
        filter_isDispatch_map]
      simp [QueueEvent.isDispatch]
    · intro q' hq
      rw [RequestQueueCollection.getQ_setQ_ne hq]
      simp

/-- Witness for C3: both requests are dispatched, A before B, keyed by the
fresh sequence ids 0 and 1. -/
theorem c3_fifo_exact_batch_witness :
    ((sC3.processPending (mkFresh (fun n => n)) QueueId.normal).state.getQ
        QueueId.normal).waiting
      = [(0, ⟨1, "ncmd"⟩), (1, ⟨2, "ncmd"⟩)] :=
  ((c3_fifo_exact_batch (fun n => n) (fun a b h => h) QueueId.normal sC3 (by decide)
      (fun i => by simp [sC3, RequestQueueCollection.getQ])).2.1).trans (by decide)

end OmniSharp
